import Mathlib

/-!
Verification development for the COI layer module (src/layers/COI.js).

The module turns a list of user-submitted cluster records into
  (a) a UnitMap: cluster id -> COI name -> list of unit identifiers,
  (b) a Pattern Assignment: cluster id -> COI name -> allocated pattern name,
  (c) declarative style expressions for the rendering engine,
loading pattern images with a transparent fallback on failure.

JavaScript objects are embedded as association lists in key-insertion
order (the enumeration order of Object.entries / Object.keys for the
string keys used here).  A JavaScript value that may be `undefined` is
embedded as an `Option`.
-/

set_option autoImplicit false
set_option maxRecDepth 8000

namespace COI

/-- A COI identifier list in an assignment value: JS reports either a bare
integer or a list of integers (source line 52-56). -/
inductive CoiIds where
  | scalar (id : Nat)
  | list (ids : List Nat)
deriving DecidableEq, Repr

/-- Source line 56: `if (!Array.isArray(coiids)) coiids = [coiids]` —
a scalar value is forced to a one-element list. -/
def normalizeCoiIds : CoiIds → List Nat
  | .scalar i => [i]
  | .list is => is

/-- One entry of a cluster plan's `parts` table: a COI identity record. -/
structure Part where
  id : Nat
  name : String
deriving DecidableEq, Repr

/-- A cluster plan.  `assignment` maps unit identifiers to COI identifier
values; it is `none` when the JS field is absent (undefined). -/
structure Plan where
  id : String
  parts : List Part
  assignment : Option (List (String × CoiIds))
deriving DecidableEq, Repr

/-- A raw cluster record; `plan` is `none` when the JS field is absent. -/
structure Cluster where
  plan : Option Plan
deriving DecidableEq, Repr

/-- Per-cluster mapping from COI name to the units the COI covers.  The key
is `Option String`: a name-table lookup miss yields the JS `undefined` key
(source lines 58-62). -/
abbrev ClusterMap := List (Option String × List String)

/-- Mapping from cluster identifier to its per-cluster COI map. -/
abbrev UnitMap := List (String × ClusterMap)

/-- Mapping from cluster identifier to COI name to allocated pattern name;
the pattern is `none` when `patterns.shift()` ran on an empty array. -/
abbrev PatternMatch := List (String × List (Option String × Option String))

/-- JS property read `m[key]` on an object embedded as an association
list: the first entry with the key, `none` (undefined) when absent. -/
def objLookup {α β : Type} [DecidableEq α] (m : List (α × β)) (key : α) : Option β :=
  match m with
  | [] => none
  | entry :: rest => if entry.1 = key then some entry.2 else objLookup rest key

/-- JS property write `m[key] = value`: replaces the value at an existing
key in place, otherwise appends the key at the end (insertion order). -/
def objSet {α β : Type} [DecidableEq α] (m : List (α × β)) (key : α) (value : β) : List (α × β) :=
  match m with
  | [] => [(key, value)]
  | entry :: rest =>
    if entry.1 = key then (key, value) :: rest else entry :: objSet rest key value

/- ### Validator (source lines 11-26, filterCOIs) -/

/-- First rule of `filterCOIs`: `Boolean(coi.plan)` — an object is truthy
exactly when the field is present. -/
def rulePlan (coi : Cluster) : Bool := coi.plan.isSome

/-- Second rule of `filterCOIs`: `Boolean(coi.plan.assignment)`.  The
filterer evaluates it only after the first rule passed (JS would throw on
a missing plan), so a missing plan is mapped to `false` here. -/
def ruleAssignment (coi : Cluster) : Bool :=
  match coi.plan with
  | some plan => plan.assignment.isSome
  | none => false

/-- Source lines 18-21: a cluster is kept only if every rule holds. -/
def filterer (cluster : Cluster) : Bool := rulePlan cluster && ruleAssignment cluster

/-- Source lines 11-26: keep exactly the clusters passing all rules. -/
def filterCOIs (clusters : List Cluster) : List Cluster := clusters.filter filterer

/- ### Unit Mapper (source lines 33-70, createUnitMap) -/

/-- The `identifiers` table built at source line 47
(`identifiers[part.id] = part.name`, later parts overwrite earlier ones)
read back at line 59 (`identifiers[coiid]`). -/
def identifiersLookup (parts : List Part) (coiid : Nat) : Option String :=
  parts.foldl (fun acc part => if part.id = coiid then some part.name else acc) none

/-- Source lines 60-61: push `unit` onto the bucket at `name`, creating
the bucket at the end of the object when absent. -/
def clusterMapAdd (clusterMap : ClusterMap) (name : Option String) (unit : String) : ClusterMap :=
  match clusterMap with
  | [] => [(name, [unit])]
  | entry :: rest =>
    if entry.1 = name then (entry.1, entry.2 ++ [unit]) :: rest
    else entry :: clusterMapAdd rest name unit

/-- The inner loops of `createUnitMap` (source lines 52-63): for each
assignment entry, normalize its COI ids, resolve each id through the
`identifiers` table and push the unit onto the resolved name's bucket. -/
def clusterCOIMap (parts : List Part) (assignment : List (String × CoiIds)) : ClusterMap :=
  assignment.foldl
    (fun clusterMap entry =>
      (normalizeCoiIds entry.2).foldl
        (fun cm coiid => clusterMapAdd cm (identifiersLookup parts coiid) entry.1)
        clusterMap)
    []

/-- The loop of `createUnitMap` (source lines 41-66) with its accumulator.
A missing `plan` or `assignment` makes the JS code throw (property access
on undefined); the embedding returns `none` in that case. -/
def createUnitMapGo (unitMap : UnitMap) (clusters : List Cluster) : Option UnitMap :=
  match clusters with
  | [] => some unitMap
  | cluster :: rest =>
    match cluster.plan with
    | none => none
    | some plan =>
      match plan.assignment with
      | none => none
      | some assignment =>
        createUnitMapGo (objSet unitMap plan.id (clusterCOIMap plan.parts assignment)) rest

/-- Source lines 33-70: build the UnitMap for a list of clusters. -/
def createUnitMap (clusters : List Cluster) : Option UnitMap :=
  createUnitMapGo [] clusters

/-- JS read `clusterMap[name]` seen as a list of units: the bucket when
present (buckets are never empty), `[]` when absent. -/
def bucketLookup (clusterMap : ClusterMap) (name : Option String) : List String :=
  (objLookup clusterMap name).getD []

/-- The plan ids of the clusters in a list, in order (skipping clusters
without a plan). -/
def clusterIds (clusters : List Cluster) : List String :=
  clusters.filterMap (fun cluster => cluster.plan.map Plan.id)

/- ### Pattern Allocator (source lines 124-138, patternsToCOIs; and the
consumption set-up of addCOIs, source lines 235-243) -/

/-- JS `patterns.shift()`: remove and return the first element; on an
empty array it returns undefined and leaves the array empty. -/
def shift (patterns : List String) : Option String × List String :=
  match patterns with
  | [] => (none, [])
  | p :: rest => (some p, rest)

/-- The inner loop of `patternsToCOIs` (source lines 133-135): one
`patterns.shift()` per COI key of the cluster, in key order. -/
def assignCluster (cluster : ClusterMap) (patterns : List String) :
    List (Option String × Option String) × List String :=
  match cluster with
  | [] => ([], patterns)
  | entry :: rest =>
    let (p, patterns') := shift patterns
    let (assigned, patterns'') := assignCluster rest patterns'
    ((entry.1, p) :: assigned, patterns'')

/-- Source lines 124-138: walk clusters and COIs in UnitMap order,
assigning each COI the next shifted pattern.  The mutation of the shared
`patterns` array is embedded as explicit state passing. -/
def patternsToCOIs (unitMap : UnitMap) (patterns : List String) :
    PatternMatch × List String :=
  match unitMap with
  | [] => ([], patterns)
  | cluster :: rest =>
    let (assigned, patterns') := assignCluster cluster.2 patterns
    let (mapping, patterns'') := patternsToCOIs rest patterns'
    ((cluster.1, assigned) :: mapping, patterns'')

/-- Source lines 235-236 of `addCOIs`: the total number of COI names,
summed over the clusters of the UnitMap. -/
def numberOfNames (unitMap : UnitMap) : Nat :=
  match unitMap with
  | [] => 0
  | cluster :: rest => cluster.2.length + numberOfNames rest

/-- Source line 241 of `addCOIs`:
`Object.keys(patterns).slice(0, numberOfNames)` — the first
`numberOfNames` pattern names of the catalog, in enumeration order. -/
def chooseNames (unitMap : UnitMap) (patterns : List (String × String)) : List String :=
  (patterns.map Prod.fst).take (numberOfNames unitMap)

/-- The allocated pattern of every (cluster, COI) pair of a
PatternMatch, flattened in walk order. -/
def allocOrder (patternMatch : PatternMatch) : List (Option String) :=
  patternMatch.flatMap (fun cluster => cluster.2.map Prod.snd)

/-- The (cluster id, COI name list) shape of a PatternMatch. -/
def matchShape (patternMatch : PatternMatch) : List (String × List (Option String)) :=
  patternMatch.map (fun cluster => (cluster.1, cluster.2.map Prod.fst))

/-- The (cluster id, COI name list) shape of a UnitMap. -/
def unitMapShape (unitMap : UnitMap) : List (String × List (Option String)) :=
  unitMap.map (fun cluster => (cluster.1, cluster.2.map Prod.fst))

/- ### Style Compiler (source lines 166-208) -/

/-- A JavaScript value as used by the style expressions: strings, numbers,
undefined, and nested arrays. -/
inductive JSVal where
  | str (s : String)
  | num (q : ℚ)
  | undefined
  | arr (xs : List JSVal)

/-- The membership subexpression built at source lines 169-173 and
194-198: the unit's GEOID20 is a member of the literal identifier list. -/
def inSubexpression (geoids : List String) : JSVal :=
  .arr [.str "in", .arr [.str "get", .str "GEOID20"],
        .arr [.str "literal", .arr (geoids.map .str)]]

/-- The rendering-target handle: its `type` and the paint properties that
`setPaintProperty` calls have written, keyed by property name. -/
structure UnitsHandle where
  type : String
  paintProps : List (String × JSVal)

/-- `units.setPaintProperty(name, value)`: record the paint property on
the handle (the engine is write-only from this module's point of view). -/
def setPaintProperty (units : UnitsHandle) (name : String) (value : JSVal) : UnitsHandle :=
  { units with paintProps := objSet units.paintProps name value }

/-- Does `pat` occur at the head of `s`? -/
def matchesAt : List Char → List Char → Bool
  | [], _ => true
  | _ :: _, [] => false
  | p :: ps, c :: cs => p == c && matchesAt ps cs

/-- JS `s.replace(pat, rep)` with a string pattern: replace only the
first occurrence of `pat` (here always a nonempty pattern), or return
`s` unchanged when `pat` does not occur. -/
def replaceFirstList (pat rep : List Char) : List Char → List Char
  | [] => []
  | c :: rest =>
    if matchesAt pat (c :: rest) then rep ++ (c :: rest).drop pat.length
    else c :: replaceFirstList pat rep rest

/-- JS `String.prototype.replace` on strings (first occurrence only). -/
def jsReplaceOnce (s pat rep : String) : String :=
  ⟨replaceFirstList pat.data rep.data s.data⟩

/-- The default of the `opacity` parameter at source line 166. -/
def defaultDimmingOpacity : ℚ := 1/3

/-- Source lines 166-178: build the two-branch case filter (member units
get opacity 0, the rest get `opacity`) and set it on the paint property
named by the target's type, with "symbol" replaced by "icon" and
"-opacity" appended.  The source function returns nothing; the pair here
is the built filter together with the mutated handle, embedding the side
effect as state passing. -/
def opacityStyleExpression (units : UnitsHandle) (geoids : List String) (opacity : ℚ) :
    JSVal × UnitsHandle :=
  let filter : JSVal := .arr [.str "case", inSubexpression geoids, .num 0, .num opacity]
  let layer := jsReplaceOnce units.type "symbol" "icon" ++ "-opacity"
  (filter, setPaintProperty units layer filter)

/-- JS read `patternMatch[clusterIdentifier][coiName]` once the cluster's
object is in hand: a missing key and a stored undefined both read back as
undefined. -/
def coiPatternValue (clusterPatterns : List (Option String × Option String))
    (coiName : Option String) : JSVal :=
  match objLookup clusterPatterns coiName with
  | some (some p) => .str p
  | _ => .undefined

/-- The inner loop of `patternStyleExpression` (source lines 193-200):
push the membership subexpression and the COI's pattern value, one COI at
a time, onto the growing expression. -/
def pushClusterItems (clusterPatterns : List (Option String × Option String))
    (cluster : ClusterMap) (expression : List JSVal) : List JSVal :=
  match cluster with
  | [] => expression
  | entry :: rest =>
    pushClusterItems clusterPatterns rest
      (expression ++ [inSubexpression entry.2, coiPatternValue clusterPatterns entry.1])

/-- The outer loop of `patternStyleExpression` (source lines 192-201).
`patternMatch[clusterIdentifier]` on a missing cluster id is undefined and
the subsequent property access throws in JS, embedded as `none`. -/
def pushCaseItems (patternMatch : PatternMatch) (unitMap : UnitMap)
    (expression : List JSVal) : Option (List JSVal) :=
  match unitMap with
  | [] => some expression
  | cluster :: rest =>
    match objLookup patternMatch cluster.1 with
    | none => none
    | some clusterPatterns =>
      pushCaseItems patternMatch rest (pushClusterItems clusterPatterns cluster.2 expression)

/-- Source lines 187-208: start from the singleton case head, push one
(membership predicate, pattern) pair per (cluster, COI) in UnitMap order,
close with the "transparent" default, set the "fill-pattern" paint
property, and return the expression. -/
def patternStyleExpression (units : UnitsHandle) (unitMap : UnitMap)
    (patternMatch : PatternMatch) : Option (JSVal × UnitsHandle) :=
  match pushCaseItems patternMatch unitMap [.str "case"] with
  | none => none
  | some items =>
    let expression : JSVal := .arr (items ++ [.str "transparent"])
    some (expression, setPaintProperty units "fill-pattern" expression)

/-- Read a literal array of strings back out of a style expression. -/
def asStrings : List JSVal → Option (List String)
  | [] => some []
  | .str s :: rest => (asStrings rest).map (s :: ·)
  | _ => none

/-- Modelled from the spec: the rendering engine's membership predicate
(the engine is an external collaborator, outside src/); the spec reads a
style expression as predicates testing whether the unit identifier is a
member of the literal list. -/
def evalInPred (geoid : String) : JSVal → Bool
  | .arr [.str "in", .arr [.str "get", .str "GEOID20"],
          .arr [.str "literal", .arr xs]] =>
    match asStrings xs with
    | some ids => ids.contains geoid
    | none => false
  | _ => false

/-- Modelled from the spec: the rendering engine's evaluation of a
"case" item list — an order-sensitive list of (predicate, value) pairs
terminated by a default value; the first predicate holding for the unit
selects its value. -/
def evalCase (geoid : String) : List JSVal → JSVal
  | pred :: value :: rest => if evalInPred geoid pred then value else evalCase geoid rest
  | [v] => v
  | [] => .undefined

/- ### Asset Loader (source lines 89-116 loadPatterns, 160-164 resolvesToArray) -/

/-- The outcome of one settled promise as reported by
`Promise.allSettled`: fulfilled with a value, or rejected with a
reason. -/
inductive SettledResult where
  | fulfilled (value : String)
  | rejected (reason : String)
deriving DecidableEq, Repr

/-- The JS property read `result.value` on an allSettled outcome: the
value of a fulfilled result; on a rejected result the field is absent, so
the read yields undefined (the reason lives under the reason field). -/
def SettledResult.value : SettledResult → Option String
  | .fulfilled v => some v
  | .rejected _ => none

/-- The map handle consumed by the Asset Loader: `loadResult url` is the
image `loadImage` hands to its callback (`none` means the load reported
an error, so the image argument is undefined), and `images` records every
`addImage(name, image)` call in call order. -/
structure MapHandle where
  loadResult : String → Option String
  images : List (String × Option String)

/-- Source lines 89-116: for each (pattern, url) catalog entry, run the
`loadImage` callback.  On error the promise is rejected with
"transparent"; the callback does not return early, so `addImage` still
runs with the undefined image, and the trailing `resolve` is a no-op on
the already-settled promise.  `Promise.allSettled` keeps the results in
catalog order regardless of completion order; completion order could only
permute the `images` record, which the theorems below only query by
membership. -/
def loadPatterns (map : MapHandle) (patternMapping : List (String × String)) :
    List SettledResult × MapHandle :=
  match patternMapping with
  | [] => ([], map)
  | entry :: rest =>
    let image := map.loadResult entry.2
    let outcome := if image.isNone then SettledResult.rejected "transparent"
                   else SettledResult.fulfilled entry.1
    let map' : MapHandle := { map with images := map.images ++ [(entry.1, image)] }
    let (results, mapFinal) := loadPatterns map' rest
    (outcome :: results, mapFinal)

/-- Source lines 160-164: collect `result.value` of every settled result
(the `Promise.resolve` wrapper is immediate and dropped here). -/
def resolvesToArray (results : List SettledResult) : List (Option String) :=
  results.map SettledResult.value

/- ### Concrete inputs used by the witness theorems -/

/-- A cluster shaped like cluster A of the spec's end-to-end scenario. -/
def clusterA : Cluster :=
  ⟨some ⟨"A", [⟨0, "Alpha"⟩, ⟨1, "Beta"⟩],
    some [("unit1", .scalar 0), ("unit2", .list [0, 1])]⟩⟩

/-- A cluster shaped like cluster B of the spec's end-to-end scenario. -/
def clusterB : Cluster :=
  ⟨some ⟨"B", [⟨5, "Gamma"⟩], some [("unit3", .scalar 5)]⟩⟩

/-- A cluster whose assignment references the part id 7 that is absent
from its parts table. -/
def clusterMiss : Cluster :=
  ⟨some ⟨"C", [⟨0, "Alpha"⟩], some [("unit9", .list [0, 7])]⟩⟩

/-- The UnitMap of the spec's end-to-end scenario. -/
def exampleUnitMap : UnitMap :=
  [("A", [(some "Alpha", ["unit1", "unit2"]), (some "Beta", ["unit2"])]),
   ("B", [(some "Gamma", ["unit3"])])]

/-- A three-entry pattern catalog. -/
def catalogThree : List (String × String) :=
  [("p1", "url1"), ("p2", "url2"), ("p3", "url3")]

/-- A two-entry pattern catalog (one short for `exampleUnitMap`). -/
def catalogTwo : List (String × String) :=
  [("p1", "url1"), ("p2", "url2")]

/-- A pattern assignment matching `exampleUnitMap`. -/
def examplePatternMatch : PatternMatch :=
  [("A", [(some "Alpha", some "p1"), (some "Beta", some "p2")]),
   ("B", [(some "Gamma", some "p3")])]

/-- A rendering-target handle with no paint property written yet. -/
def exampleUnits : UnitsHandle := ⟨"fill", []⟩

/-- A map handle on which only the URL "bad" fails to load. -/
def mixedLoadMap : MapHandle :=
  ⟨fun url => if url = "bad" then none else some "img", []⟩

/- ### Validator theorems (claim C5) -/

/-- Claim C5: `filterCOIs` returns a subsequence of its input (subset, in
relative order, records unmodified), a cluster is in the output exactly
when it is in the input with a truthy `plan` and a truthy
`plan.assignment`, and in particular every input cluster satisfying both
rules is kept. -/
theorem filterCOIs_subsequence_and_rules (clusters : List Cluster) :
    (filterCOIs clusters).Sublist clusters ∧
    ∀ cluster : Cluster,
      cluster ∈ filterCOIs clusters ↔
        cluster ∈ clusters ∧ rulePlan cluster = true ∧ ruleAssignment cluster = true := by
  constructor
  · exact List.filter_sublist clusters
  · intro cluster
    simp [filterCOIs, List.mem_filter, filterer, Bool.and_eq_true, and_assoc]

/- ### Pattern Allocator lemmas -/

theorem assignCluster_snd (cluster : ClusterMap) :
    ∀ patterns : List String,
      (assignCluster cluster patterns).2 = patterns.drop cluster.length := by
  induction cluster with
  | nil => intro patterns; simp [assignCluster]
  | cons entry rest ih =>
    intro patterns
    cases patterns with
    | nil => simp [assignCluster, shift, ih]
    | cons p ps => simp [assignCluster, shift, ih]

theorem assignCluster_keys (cluster : ClusterMap) :
    ∀ patterns : List String,
      (assignCluster cluster patterns).1.map Prod.fst = cluster.map Prod.fst := by
  induction cluster with
  | nil => intro patterns; simp [assignCluster]
  | cons entry rest ih =>
    intro patterns
    cases patterns with
    | nil => simp [assignCluster, shift, ih]
    | cons p ps => simp [assignCluster, shift, ih]

theorem assignCluster_values (cluster : ClusterMap) :
    ∀ patterns : List String,
      (assignCluster cluster patterns).1.map Prod.snd =
        (patterns.take cluster.length).map some ++
          List.replicate (cluster.length - patterns.length) none := by
  induction cluster with
  | nil => intro patterns; simp [assignCluster]
  | cons entry rest ih =>
    intro patterns
    cases patterns with
    | nil =>
      simp [assignCluster, shift, ih, List.replicate_succ]
    | cons p ps =>
      simp [assignCluster, shift, ih, List.take_succ_cons, Nat.succ_sub_succ]

theorem patternsToCOIs_snd (unitMap : UnitMap) :
    ∀ patterns : List String,
      (patternsToCOIs unitMap patterns).2 = patterns.drop (numberOfNames unitMap) := by
  induction unitMap with
  | nil => intro patterns; simp [patternsToCOIs, numberOfNames]
  | cons cluster rest ih =>
    intro patterns
    simp only [patternsToCOIs, assignCluster_snd, ih, numberOfNames, List.drop_drop]

theorem patternsToCOIs_shape (unitMap : UnitMap) :
    ∀ patterns : List String,
      matchShape (patternsToCOIs unitMap patterns).1 = unitMapShape unitMap := by
  induction unitMap with
  | nil => intro patterns; simp [patternsToCOIs, matchShape, unitMapShape]
  | cons cluster rest ih =>
    intro patterns
    simp [patternsToCOIs, matchShape, unitMapShape, assignCluster_keys]
    have := ih (assignCluster cluster.2 patterns).2
    simpa [matchShape, unitMapShape] using this

theorem allocOrder_patternsToCOIs (unitMap : UnitMap) :
    ∀ patterns : List String,
      allocOrder (patternsToCOIs unitMap patterns).1 =
        (patterns.take (numberOfNames unitMap)).map some ++
          List.replicate (numberOfNames unitMap - patterns.length) none := by
  induction unitMap with
  | nil => intro patterns; simp [patternsToCOIs, allocOrder, numberOfNames]
  | cons cluster rest ih =>
    intro patterns
    have hsplit : patterns.take (cluster.2.length + numberOfNames rest) =
        patterns.take cluster.2.length ++
          (patterns.drop cluster.2.length).take (numberOfNames rest) :=
      List.take_add patterns cluster.2.length (numberOfNames rest)
    simp only [patternsToCOIs, allocOrder, List.flatMap_cons, numberOfNames,
      assignCluster_snd, assignCluster_values, hsplit, List.map_append]
    rw [← allocOrder, ih (patterns.drop cluster.2.length)]
    rcases le_or_lt cluster.2.length patterns.length with hle | hlt
    · have h1 : cluster.2.length - patterns.length = 0 := Nat.sub_eq_zero_of_le hle
      have h2 : (patterns.drop cluster.2.length).length =
          patterns.length - cluster.2.length := List.length_drop _ _
      have h3 : numberOfNames rest - (patterns.length - cluster.2.length) =
          cluster.2.length + numberOfNames rest - patterns.length := by omega
      simp [h1, h2, h3]
    · have h1 : patterns.drop cluster.2.length = [] :=
        List.drop_eq_nil_of_le (Nat.le_of_lt hlt)
      have h2 : cluster.2.length + numberOfNames rest - patterns.length =
          (cluster.2.length - patterns.length) + numberOfNames rest := by omega
      rw [h1]
      simp only [List.take_nil, List.map_nil, List.nil_append, List.length_nil,
        Nat.sub_zero, h2, List.replicate_add, List.append_assoc]

theorem filterMap_id_replicate_none (k : Nat) :
    (List.replicate k (none : Option String)).filterMap id = [] := by
  induction k with
  | zero => rfl
  | succ n ih => simp [List.replicate_succ, ih]

/- ### Pattern Allocator theorems (claims C2 and C6) -/

/-- Claim C2: with a catalog of M ≥ N pattern names (N the number of
(cluster, COI) pairs), walking clusters and COIs in UnitMap order assigns
exactly the first N catalog names, one at a time in catalog enumeration
order, so every pair's pattern is distinct from every other pair's; the
assignment keeps the UnitMap's (cluster, COI) shape. -/
theorem patternsToCOIs_distinct_allocation (unitMap : UnitMap)
    (catalog : List (String × String))
    (hM : numberOfNames unitMap ≤ catalog.length)
    (hnodup : (catalog.map Prod.fst).Nodup) :
    allocOrder (patternsToCOIs unitMap (chooseNames unitMap catalog)).1 =
      ((catalog.map Prod.fst).take (numberOfNames unitMap)).map some ∧
    (allocOrder (patternsToCOIs unitMap (chooseNames unitMap catalog)).1).Nodup ∧
    matchShape (patternsToCOIs unitMap (chooseNames unitMap catalog)).1 =
      unitMapShape unitMap := by
  have hlen : (catalog.map Prod.fst).length = catalog.length := List.length_map _ _
  have hfirst :
      allocOrder (patternsToCOIs unitMap (chooseNames unitMap catalog)).1 =
        ((catalog.map Prod.fst).take (numberOfNames unitMap)).map some := by
    rw [allocOrder_patternsToCOIs, chooseNames, List.take_take, min_self,
      List.length_take, hlen, min_eq_left hM, Nat.sub_self]
    simp
  refine ⟨hfirst, ?_, patternsToCOIs_shape unitMap _⟩
  rw [hfirst]
  exact ((List.take_sublist _ _).nodup hnodup).map (Option.some_injective _)

/-- Claim C6: with a catalog of M < N pattern names, the allocator
degrades rather than failing — walking in UnitMap order, the first M
(cluster, COI) pairs receive the M catalog names in order, every
remaining pair receives no pattern (undefined, since `shift` ran on an
exhausted array), and no pattern name is reused. -/
theorem patternsToCOIs_catalog_exhaustion (unitMap : UnitMap)
    (catalog : List (String × String))
    (hM : catalog.length < numberOfNames unitMap)
    (hnodup : (catalog.map Prod.fst).Nodup) :
    allocOrder (patternsToCOIs unitMap (chooseNames unitMap catalog)).1 =
      (catalog.map Prod.fst).map some ++
        List.replicate (numberOfNames unitMap - catalog.length) none ∧
    ((allocOrder (patternsToCOIs unitMap (chooseNames unitMap catalog)).1).filterMap
        id).Nodup ∧
    matchShape (patternsToCOIs unitMap (chooseNames unitMap catalog)).1 =
      unitMapShape unitMap := by
  have hlen : (catalog.map Prod.fst).length = catalog.length := List.length_map _ _
  have hall : chooseNames unitMap catalog = catalog.map Prod.fst := by
    rw [chooseNames]
    exact List.take_of_length_le (by rw [hlen]; exact Nat.le_of_lt hM)
  have hfirst :
      allocOrder (patternsToCOIs unitMap (chooseNames unitMap catalog)).1 =
        (catalog.map Prod.fst).map some ++
          List.replicate (numberOfNames unitMap - catalog.length) none := by
    rw [allocOrder_patternsToCOIs, hall,
      List.take_of_length_le (by rw [hlen]; exact Nat.le_of_lt hM), hlen]
  refine ⟨hfirst, ?_, patternsToCOIs_shape unitMap _⟩
  rw [hfirst, List.filterMap_append, List.filterMap_map, filterMap_id_replicate_none]
  have : (id ∘ (some : String → Option String)) = some := rfl
  rw [this, List.filterMap_some, List.append_nil]
  exact hnodup

/-- Witness for claim C2 at the spec's end-to-end scenario: two clusters
with three COIs in total against a three-entry catalog. -/
theorem patternsToCOIs_distinct_allocation_witness :
    (numberOfNames exampleUnitMap ≤ catalogThree.length ∧
      (catalogThree.map Prod.fst).Nodup) ∧
    (allocOrder (patternsToCOIs exampleUnitMap (chooseNames exampleUnitMap catalogThree)).1 =
        ((catalogThree.map Prod.fst).take (numberOfNames exampleUnitMap)).map some ∧
      (allocOrder (patternsToCOIs exampleUnitMap
        (chooseNames exampleUnitMap catalogThree)).1).Nodup ∧
      matchShape (patternsToCOIs exampleUnitMap (chooseNames exampleUnitMap catalogThree)).1 =
        unitMapShape exampleUnitMap) :=
  ⟨⟨by decide, by decide⟩,
    patternsToCOIs_distinct_allocation exampleUnitMap catalogThree (by decide) (by decide)⟩

/-- Witness for claim C6: the same UnitMap (three COIs) against a
two-entry catalog. -/
theorem patternsToCOIs_catalog_exhaustion_witness :
    (catalogTwo.length < numberOfNames exampleUnitMap ∧
      (catalogTwo.map Prod.fst).Nodup) ∧
    (allocOrder (patternsToCOIs exampleUnitMap (chooseNames exampleUnitMap catalogTwo)).1 =
        (catalogTwo.map Prod.fst).map some ++
          List.replicate (numberOfNames exampleUnitMap - catalogTwo.length) none ∧
      ((allocOrder (patternsToCOIs exampleUnitMap
          (chooseNames exampleUnitMap catalogTwo)).1).filterMap id).Nodup ∧
      matchShape (patternsToCOIs exampleUnitMap (chooseNames exampleUnitMap catalogTwo)).1 =
        unitMapShape exampleUnitMap) :=
  ⟨⟨by decide, by decide⟩,
    patternsToCOIs_catalog_exhaustion exampleUnitMap catalogTwo (by decide) (by decide)⟩

/- ### Unit Mapper lemmas -/

theorem bucketLookup_nil (name : Option String) : bucketLookup [] name = [] := rfl

theorem bucketLookup_cons (entry : Option String × List String)
    (rest : ClusterMap) (name : Option String) :
    bucketLookup (entry :: rest) name =
      if entry.1 = name then entry.2 else bucketLookup rest name := by
  by_cases h : entry.1 = name <;> simp [bucketLookup, objLookup, h]

theorem mem_bucketLookup_clusterMapAdd (clusterMap : ClusterMap)
    (name : Option String) (unit u : String) (n : Option String) :
    u ∈ bucketLookup (clusterMapAdd clusterMap name unit) n ↔
      u ∈ bucketLookup clusterMap n ∨ (n = name ∧ u = unit) := by
  induction clusterMap with
  | nil =>
    by_cases h : name = n
    · subst h; simp [clusterMapAdd, bucketLookup_cons, bucketLookup_nil]
    · simp [clusterMapAdd, bucketLookup_cons, bucketLookup_nil, h, Ne.symm h]
  | cons entry rest ih =>
    by_cases hkey : entry.1 = name
    · by_cases hn : entry.1 = n
      · have hnn : n = name := by rw [← hn, hkey]
        simp only [clusterMapAdd, if_pos hkey, bucketLookup_cons, if_pos hn,
          List.mem_append, List.mem_singleton, hnn]
        tauto
      · have hnn : ¬n = name := fun h => hn (by rw [hkey, ← h])
        simp [clusterMapAdd, if_pos hkey, bucketLookup_cons, hn, hnn]
    · by_cases hn : entry.1 = n
      · have hnn : ¬n = name := fun h => hkey (hn.trans h)
        simp [clusterMapAdd, if_neg hkey, bucketLookup_cons, hn, hnn]
      · simp [clusterMapAdd, if_neg hkey, bucketLookup_cons, hn, ih]

theorem mem_bucketLookup_foldIds (parts : List Part) (unit u : String)
    (n : Option String) :
    ∀ (ids : List Nat) (clusterMap : ClusterMap),
      u ∈ bucketLookup
          (ids.foldl
            (fun cm coiid => clusterMapAdd cm (identifiersLookup parts coiid) unit)
            clusterMap) n ↔
        u ∈ bucketLookup clusterMap n ∨
          (u = unit ∧ ∃ i ∈ ids, identifiersLookup parts i = n) := by
  intro ids
  induction ids with
  | nil => intro clusterMap; simp
  | cons i rest ih =>
    intro clusterMap
    rw [List.foldl_cons, ih, mem_bucketLookup_clusterMapAdd]
    simp only [List.mem_cons]
    constructor
    · rintro ((h | ⟨hn, hu⟩) | ⟨hu, j, hj, hjn⟩)
      · exact Or.inl h
      · exact Or.inr ⟨hu, i, Or.inl rfl, hn.symm⟩
      · exact Or.inr ⟨hu, j, Or.inr hj, hjn⟩
    · rintro (h | ⟨hu, j, (rfl | hj), hjn⟩)
      · exact Or.inl (Or.inl h)
      · exact Or.inl (Or.inr ⟨hjn.symm, hu⟩)
      · exact Or.inr ⟨hu, j, hj, hjn⟩

theorem mem_bucketLookup_clusterCOIMap (parts : List Part)
    (assignment : List (String × CoiIds)) (u : String) (n : Option String) :
    u ∈ bucketLookup (clusterCOIMap parts assignment) n ↔
      ∃ entry ∈ assignment, entry.1 = u ∧
        ∃ i ∈ normalizeCoiIds entry.2, identifiersLookup parts i = n := by
  have general :
      ∀ (asg : List (String × CoiIds)) (clusterMap : ClusterMap),
        u ∈ bucketLookup
            (asg.foldl
              (fun cm entry =>
                (normalizeCoiIds entry.2).foldl
                  (fun cm coiid =>
                    clusterMapAdd cm (identifiersLookup parts coiid) entry.1)
                  cm)
              clusterMap) n ↔
          u ∈ bucketLookup clusterMap n ∨
            ∃ entry ∈ asg, entry.1 = u ∧
              ∃ i ∈ normalizeCoiIds entry.2, identifiersLookup parts i = n := by
    intro asg
    induction asg with
    | nil => intro clusterMap; simp
    | cons entry rest ih =>
      intro clusterMap
      rw [List.foldl_cons, ih, mem_bucketLookup_foldIds]
      simp only [List.mem_cons]
      constructor
      · rintro ((h | ⟨hu, i, hi, hin⟩) | ⟨e, he, heu, i, hi, hin⟩)
        · exact Or.inl h
        · exact Or.inr ⟨entry, Or.inl rfl, hu.symm, i, hi, hin⟩
        · exact Or.inr ⟨e, Or.inr he, heu, i, hi, hin⟩
      · rintro (h | ⟨e, (rfl | he), heu, i, hi, hin⟩)
        · exact Or.inl (Or.inl h)
        · exact Or.inl (Or.inr ⟨heu.symm, i, hi, hin⟩)
        · exact Or.inr ⟨e, he, heu, i, hi, hin⟩
  rw [clusterCOIMap, general, bucketLookup_nil]
  simp

theorem objLookup_objSet_self {α β : Type} [DecidableEq α]
    (m : List (α × β)) (key : α) (value : β) :
    objLookup (objSet m key value) key = some value := by
  induction m with
  | nil => simp [objSet, objLookup]
  | cons entry rest ih =>
    by_cases h : entry.1 = key <;> simp [objSet, objLookup, h, ih]

theorem objLookup_objSet_ne {α β : Type} [DecidableEq α]
    (m : List (α × β)) (key : α) (value : β) (k : α) (h : k ≠ key) :
    objLookup (objSet m key value) k = objLookup m k := by
  induction m with
  | nil => simp [objSet, objLookup, Ne.symm h]
  | cons entry rest ih =>
    by_cases hk : entry.1 = key
    · simp [objSet, objLookup, hk, Ne.symm h]
    · simp [objSet, objLookup, hk, ih]

theorem createUnitMapGo_spec :
    ∀ (clusters : List Cluster) (unitMap₀ : UnitMap),
      (∀ c ∈ clusters, filterer c = true) →
      (clusterIds clusters).Nodup →
      ∃ um, createUnitMapGo unitMap₀ clusters = some um ∧
        (∀ k, k ∉ clusterIds clusters → objLookup um k = objLookup unitMap₀ k) ∧
        (∀ c ∈ clusters, ∀ p, c.plan = some p → ∀ asg, p.assignment = some asg →
          objLookup um p.id = some (clusterCOIMap p.parts asg)) := by
  intro clusters
  induction clusters with
  | nil =>
    intro unitMap₀ _ _
    exact ⟨unitMap₀, rfl, fun k _ => rfl, fun c hc => absurd hc (List.not_mem_nil c)⟩
  | cons c₀ rest ih =>
    intro unitMap₀ hvalid hnodup
    have hv₀ : filterer c₀ = true := hvalid c₀ (List.mem_cons_self c₀ rest)
    rw [filterer, Bool.and_eq_true] at hv₀
    obtain ⟨p₀, hp₀⟩ := Option.isSome_iff_exists.mp hv₀.1
    have hasg₀ : p₀.assignment.isSome := by
      have := hv₀.2
      rw [ruleAssignment, hp₀] at this
      exact this
    obtain ⟨asg₀, hasg₀⟩ := Option.isSome_iff_exists.mp hasg₀
    have hids : clusterIds (c₀ :: rest) = p₀.id :: clusterIds rest := by
      simp [clusterIds, hp₀]
    rw [hids, List.nodup_cons] at hnodup
    obtain ⟨um, hum, hpres, hcover⟩ :=
      ih (objSet unitMap₀ p₀.id (clusterCOIMap p₀.parts asg₀))
        (fun c hc => hvalid c (List.mem_cons_of_mem c₀ hc)) hnodup.2
    refine ⟨um, ?_, ?_, ?_⟩
    · simp only [createUnitMapGo, hp₀, hasg₀]
      exact hum
    · intro k hk
      rw [hids, List.mem_cons] at hk
      push_neg at hk
      rw [hpres k hk.2]
      exact objLookup_objSet_ne _ _ _ _ hk.1
    · intro c hc p hp asg hasg
      rcases List.mem_cons.mp hc with rfl | hc
      · rw [hp] at hp₀
        injection hp₀ with hp₀
        subst hp₀
        rw [hasg] at hasg₀
        injection hasg₀ with hasg₀
        subst hasg₀
        rw [hpres p.id hnodup.1, objLookup_objSet_self]
      · exact hcover c hc p hp asg hasg

/- ### Unit Mapper theorems (claims C3 and C7) -/

/-- Claim C3: for valid clusters (with the unique plan ids the data model
guarantees), `createUnitMap` succeeds and, within each cluster's map, a
unit appears under a COI name exactly when some assignment entry for that
unit resolves one of its COI identifiers to that name through the
cluster's parts table; and a scalar assignment value is normalized
exactly like its one-element list. -/
theorem createUnitMap_membership (clusters : List Cluster)
    (hvalid : ∀ c ∈ clusters, filterer c = true)
    (hnodup : (clusterIds clusters).Nodup) :
    (∃ um, createUnitMap clusters = some um ∧
      ∀ c ∈ clusters, ∀ p, c.plan = some p → ∀ asg, p.assignment = some asg →
        ∃ cm, objLookup um p.id = some cm ∧
          ∀ (u : String) (n : Option String),
            u ∈ bucketLookup cm n ↔
              ∃ entry ∈ asg, entry.1 = u ∧
                ∃ i ∈ normalizeCoiIds entry.2, identifiersLookup p.parts i = n) ∧
    ∀ i, normalizeCoiIds (CoiIds.scalar i) = normalizeCoiIds (CoiIds.list [i]) := by
  obtain ⟨um, hum, -, hcover⟩ := createUnitMapGo_spec clusters [] hvalid hnodup
  refine ⟨⟨um, hum, ?_⟩, fun i => rfl⟩
  intro c hc p hp asg hasg
  exact ⟨clusterCOIMap p.parts asg, hcover c hc p hp asg hasg,
    fun u n => mem_bucketLookup_clusterCOIMap p.parts asg u n⟩

/-- Witness for claim C3 at the spec's end-to-end clusters, including the
multi-COI unit "unit2". -/
theorem createUnitMap_membership_witness :
    ((∀ c ∈ [clusterA, clusterB], filterer c = true) ∧
      (clusterIds [clusterA, clusterB]).Nodup) ∧
    ((∃ um, createUnitMap [clusterA, clusterB] = some um ∧
      ∀ c ∈ [clusterA, clusterB], ∀ p, c.plan = some p →
        ∀ asg, p.assignment = some asg →
        ∃ cm, objLookup um p.id = some cm ∧
          ∀ (u : String) (n : Option String),
            u ∈ bucketLookup cm n ↔
              ∃ entry ∈ asg, entry.1 = u ∧
                ∃ i ∈ normalizeCoiIds entry.2, identifiersLookup p.parts i = n) ∧
    ∀ i, normalizeCoiIds (CoiIds.scalar i) = normalizeCoiIds (CoiIds.list [i])) :=
  ⟨⟨by decide, by decide⟩,
    createUnitMap_membership [clusterA, clusterB] (by decide) (by decide)⟩

/-- Claim C7: a unit whose assignment value references a part id missing
from the parts table is neither an error nor dropped: `createUnitMap`
still succeeds and the unit lands in the bucket keyed by the undefined
name of that cluster's map. -/
theorem createUnitMap_unresolved_bucket (clusters : List Cluster)
    (hvalid : ∀ c ∈ clusters, filterer c = true)
    (hnodup : (clusterIds clusters).Nodup)
    (c : Cluster) (hc : c ∈ clusters) (p : Plan) (hp : c.plan = some p)
    (asg : List (String × CoiIds)) (hasg : p.assignment = some asg)
    (entry : String × CoiIds) (he : entry ∈ asg)
    (i : Nat) (hi : i ∈ normalizeCoiIds entry.2)
    (hmiss : identifiersLookup p.parts i = none) :
    ∃ um cm, createUnitMap clusters = some um ∧
      objLookup um p.id = some cm ∧ entry.1 ∈ bucketLookup cm none := by
  obtain ⟨um, hum, -, hcover⟩ := createUnitMapGo_spec clusters [] hvalid hnodup
  refine ⟨um, clusterCOIMap p.parts asg, hum, hcover c hc p hp asg hasg, ?_⟩
  exact (mem_bucketLookup_clusterCOIMap p.parts asg entry.1 none).mpr
    ⟨entry, he, rfl, i, hi, hmiss⟩

/-- Witness for claim C7: the cluster whose assignment references the
missing part id 7; its unit "unit9" lands in the undefined-keyed
bucket. -/
theorem createUnitMap_unresolved_bucket_witness :
    ((∀ c ∈ [clusterMiss], filterer c = true) ∧
      (clusterIds [clusterMiss]).Nodup ∧
      clusterMiss ∈ [clusterMiss] ∧
      clusterMiss.plan = some ⟨"C", [⟨0, "Alpha"⟩], some [("unit9", .list [0, 7])]⟩ ∧
      ("unit9", CoiIds.list [0, 7]) ∈ [("unit9", CoiIds.list [0, 7])] ∧
      7 ∈ normalizeCoiIds (CoiIds.list [0, 7]) ∧
      identifiersLookup [⟨0, "Alpha"⟩] 7 = none) ∧
    ∃ um cm, createUnitMap [clusterMiss] = some um ∧
      objLookup um "C" = some cm ∧ "unit9" ∈ bucketLookup cm none :=
  ⟨⟨by decide, by decide, by decide, by decide, by decide, by decide, by decide⟩,
    createUnitMap_unresolved_bucket [clusterMiss] (by decide) (by decide)
      clusterMiss (by decide)
      ⟨"C", [⟨0, "Alpha"⟩], some [("unit9", .list [0, 7])]⟩ (by decide)
      [("unit9", .list [0, 7])] (by decide)
      ("unit9", .list [0, 7]) (by decide)
      7 (by decide) (by decide)⟩

/- ### Style Compiler lemmas -/

theorem pushClusterItems_eq (clusterPatterns : List (Option String × Option String))
    (cluster : ClusterMap) :
    ∀ expression, pushClusterItems clusterPatterns cluster expression =
      expression ++ cluster.flatMap (fun entry =>
        [inSubexpression entry.2, coiPatternValue clusterPatterns entry.1]) := by
  induction cluster with
  | nil => intro e; simp [pushClusterItems]
  | cons entry rest ih => intro e; simp [pushClusterItems, ih]

theorem pushCaseItems_eq (patternMatch : PatternMatch) :
    ∀ unitMap : UnitMap,
      (∀ cluster ∈ unitMap, (objLookup patternMatch cluster.1).isSome = true) →
      ∀ expression, pushCaseItems patternMatch unitMap expression =
        some (expression ++ unitMap.flatMap (fun cluster =>
          cluster.2.flatMap (fun entry =>
            [inSubexpression entry.2,
             coiPatternValue ((objLookup patternMatch cluster.1).getD []) entry.1]))) := by
  intro unitMap
  induction unitMap with
  | nil => intro _ e; simp [pushCaseItems]
  | cons cluster rest ih =>
    intro hcover e
    obtain ⟨cp, hcp⟩ :=
      Option.isSome_iff_exists.mp (hcover cluster (List.mem_cons_self _ _))
    simp only [pushCaseItems, hcp]
    rw [ih (fun c hc => hcover c (List.mem_cons_of_mem _ hc)) _, pushClusterItems_eq]
    simp [hcp, List.append_assoc]

theorem patternStyleExpression_eq (units : UnitsHandle) (unitMap : UnitMap)
    (patternMatch : PatternMatch) :
    patternStyleExpression units unitMap patternMatch =
      (pushCaseItems patternMatch unitMap [JSVal.str "case"]).map (fun items =>
        (JSVal.arr (items ++ [JSVal.str "transparent"]),
         setPaintProperty units "fill-pattern"
           (JSVal.arr (items ++ [JSVal.str "transparent"])))) := by
  cases h : pushCaseItems patternMatch unitMap [JSVal.str "case"] <;>
    simp [patternStyleExpression, h]

theorem asStrings_map_str (geoids : List String) :
    asStrings (geoids.map JSVal.str) = some geoids := by
  induction geoids with
  | nil => rfl
  | cons g rest ih => simp [asStrings, ih]

/- ### Style Compiler theorems (claims C4, C8 and C9) -/

/-- Claim C4: `patternStyleExpression` returns an expression beginning
with "case", followed, for every (cluster, COI, unit-list) triple in
UnitMap order, by the membership predicate over the COI's unit list
immediately followed by the COI's assigned pattern value, ending with the
single default "transparent"; and the same expression is applied to the
target's "fill-pattern" paint property. -/
theorem patternStyleExpression_spec (units : UnitsHandle) (unitMap : UnitMap)
    (patternMatch : PatternMatch)
    (hcover : ∀ cluster ∈ unitMap, (objLookup patternMatch cluster.1).isSome = true) :
    ∃ e units', patternStyleExpression units unitMap patternMatch = some (e, units') ∧
      e = JSVal.arr (JSVal.str "case" ::
        (unitMap.flatMap (fun cluster => cluster.2.flatMap (fun entry =>
          [inSubexpression entry.2,
           coiPatternValue ((objLookup patternMatch cluster.1).getD []) entry.1])) ++
         [JSVal.str "transparent"])) ∧
      objLookup units'.paintProps "fill-pattern" = some e := by
  rw [patternStyleExpression_eq, pushCaseItems_eq patternMatch unitMap hcover]
  refine ⟨_, _, rfl, by simp, ?_⟩
  exact objLookup_objSet_self _ _ _

/-- Witness for claim C4 at the spec's end-to-end scenario. -/
theorem patternStyleExpression_spec_witness :
    (∀ cluster ∈ exampleUnitMap,
      (objLookup examplePatternMatch cluster.1).isSome = true) ∧
    (∃ e units',
      patternStyleExpression exampleUnits exampleUnitMap examplePatternMatch =
        some (e, units') ∧
      e = JSVal.arr (JSVal.str "case" ::
        (exampleUnitMap.flatMap (fun cluster => cluster.2.flatMap (fun entry =>
          [inSubexpression entry.2,
           coiPatternValue ((objLookup examplePatternMatch cluster.1).getD [])
             entry.1])) ++
         [JSVal.str "transparent"])) ∧
      objLookup units'.paintProps "fill-pattern" = some e) :=
  ⟨by decide,
    patternStyleExpression_spec exampleUnits exampleUnitMap examplePatternMatch
      (by decide)⟩

/-- Claim C9: `patternStyleExpression` is deterministic — a second call
with the identical UnitMap and Pattern Assignment (in particular on the
target already mutated by the first call) returns the identical
expression. -/
theorem patternStyleExpression_deterministic (units : UnitsHandle)
    (unitMap : UnitMap) (patternMatch : PatternMatch)
    (e : JSVal) (units' : UnitsHandle)
    (h : patternStyleExpression units unitMap patternMatch = some (e, units')) :
    ∃ units'',
      patternStyleExpression units' unitMap patternMatch = some (e, units'') := by
  rw [patternStyleExpression_eq] at h ⊢
  cases hpc : pushCaseItems patternMatch unitMap [JSVal.str "case"] with
  | none => rw [hpc] at h; simp at h
  | some items =>
    rw [hpc] at h
    simp only [Option.map_some', Option.some.injEq, Prod.mk.injEq] at h
    exact ⟨setPaintProperty units' "fill-pattern"
        (JSVal.arr (items ++ [JSVal.str "transparent"])),
      by simp [h.1]⟩

/-- Witness for claim C9: both calls at the end-to-end scenario return
the same expression. -/
theorem patternStyleExpression_deterministic_witness :
    ∃ e units',
      patternStyleExpression exampleUnits exampleUnitMap examplePatternMatch =
        some (e, units') ∧
      ∃ units'',
        patternStyleExpression units' exampleUnitMap examplePatternMatch =
          some (e, units'') := by
  have h : ∃ p, patternStyleExpression exampleUnits exampleUnitMap
      examplePatternMatch = some p := ⟨_, rfl⟩
  obtain ⟨⟨e, u⟩, h⟩ := h
  exact ⟨e, u, h,
    patternStyleExpression_deterministic exampleUnits exampleUnitMap
      examplePatternMatch e u h⟩

theorem evalCase_two_branch (geoids : List String) (opacity : ℚ) (geoid : String) :
    evalCase geoid [inSubexpression geoids, .num 0, .num opacity] =
      if geoid ∈ geoids then JSVal.num 0 else JSVal.num opacity := by
  have h : evalInPred geoid (inSubexpression geoids) = geoids.contains geoid := by
    simp [evalInPred, inSubexpression, asStrings_map_str]
  by_cases hm : geoid ∈ geoids <;>
    simp [evalCase, h, hm, List.contains, List.elem_iff]

/-- Claim C8: `opacityStyleExpression` builds the two-branch conditional
in which membership of the unit's identifier yields opacity 0 and
non-membership yields the passed opacity, applies it to the paint
property named by the target's type with "symbol" replaced by "icon" and
"-opacity" appended, and the default opacity is one third. -/
theorem opacityStyleExpression_spec (units : UnitsHandle) (geoids : List String)
    (opacity : ℚ) :
    (opacityStyleExpression units geoids opacity).1 =
      JSVal.arr [.str "case", inSubexpression geoids, .num 0, .num opacity] ∧
    objLookup (opacityStyleExpression units geoids opacity).2.paintProps
        (jsReplaceOnce units.type "symbol" "icon" ++ "-opacity") =
      some (opacityStyleExpression units geoids opacity).1 ∧
    (∀ geoid, evalCase geoid [inSubexpression geoids, .num 0, .num opacity] =
      if geoid ∈ geoids then JSVal.num 0 else JSVal.num opacity) ∧
    defaultDimmingOpacity = 1 / 3 ∧
    jsReplaceOnce "symbol" "symbol" "icon" = "icon" ∧
    jsReplaceOnce "fill" "symbol" "icon" = "fill" := by
  refine ⟨rfl, ?_, evalCase_two_branch geoids opacity, rfl, by decide, by decide⟩
  exact objLookup_objSet_self _ _ _

/- ### Asset Loader lemmas -/

theorem loadPatterns_spec (patternMapping : List (String × String)) :
    ∀ map : MapHandle,
      (loadPatterns map patternMapping).1 =
        patternMapping.map (fun entry =>
          if (map.loadResult entry.2).isNone then SettledResult.rejected "transparent"
          else SettledResult.fulfilled entry.1) ∧
      (loadPatterns map patternMapping).2.images =
        map.images ++
          patternMapping.map (fun entry => (entry.1, map.loadResult entry.2)) := by
  induction patternMapping with
  | nil => intro map; simp [loadPatterns]
  | cons entry rest ih =>
    intro map
    obtain ⟨h1, h2⟩ :=
      ih { map with images := map.images ++ [(entry.1, map.loadResult entry.2)] }
    constructor
    · simp [loadPatterns, h1]
    · simp [loadPatterns, h2]

/- ### Asset Loader theorems (claims C1 and C10) -/

/-- Claim C1 is refuted on the code: on a three-pattern catalog whose
middle URL fails to load, the settled results do carry the rejection
reason "transparent", but `resolvesToArray` reads the absent value field
of the rejected result, so the failed entry comes back as undefined and
no entry of the result list equals "transparent". -/
theorem resolvesToArray_failure_is_undefined :
    (loadPatterns mixedLoadMap
        [("dots", "good"), ("lines", "bad"), ("stripes", "good2")]).1 =
      [.fulfilled "dots", .rejected "transparent", .fulfilled "stripes"] ∧
    resolvesToArray (loadPatterns mixedLoadMap
        [("dots", "good"), ("lines", "bad"), ("stripes", "good2")]).1 =
      [some "dots", none, some "stripes"] ∧
    some "transparent" ∉ resolvesToArray (loadPatterns mixedLoadMap
        [("dots", "good"), ("lines", "bad"), ("stripes", "good2")]).1 := by
  refine ⟨?_, ?_, ?_⟩ <;> decide

/-- Claim C10: when a pattern's image load reports an error, the error
branch does not terminate the callback — after the promise is rejected
with "transparent", `addImage` is still called with the pattern name and
the absent (undefined) image. -/
theorem loadPatterns_addImage_unguarded (map : MapHandle)
    (patternMapping : List (String × String)) (pattern url : String)
    (hmem : (pattern, url) ∈ patternMapping)
    (herr : map.loadResult url = none) :
    (pattern, (none : Option String)) ∈ (loadPatterns map patternMapping).2.images ∧
    SettledResult.rejected "transparent" ∈ (loadPatterns map patternMapping).1 := by
  obtain ⟨hres, himg⟩ := loadPatterns_spec patternMapping map
  constructor
  · rw [himg, List.mem_append, List.mem_map]
    exact Or.inr ⟨(pattern, url), hmem, by simp [herr]⟩
  · rw [hres, List.mem_map]
    exact ⟨(pattern, url), hmem, by simp [herr]⟩

/-- Witness for claim C10: the failing entry ("lines", "bad") still gets
an `addImage` call with an undefined image. -/
theorem loadPatterns_addImage_unguarded_witness :
    (("lines", "bad") ∈ [("dots", "good"), ("lines", "bad")] ∧
      mixedLoadMap.loadResult "bad" = none) ∧
    (("lines", (none : Option String)) ∈
        (loadPatterns mixedLoadMap [("dots", "good"), ("lines", "bad")]).2.images ∧
      SettledResult.rejected "transparent" ∈
        (loadPatterns mixedLoadMap [("dots", "good"), ("lines", "bad")]).1) :=
  ⟨⟨by decide, by decide⟩,
    loadPatterns_addImage_unguarded mixedLoadMap [("dots", "good"), ("lines", "bad")]
      "lines" "bad" (by decide) (by decide)⟩

end COI
